import Mathlib

/-!
Verification of the input-abstraction layer of Cataclysm-DDA (src/input.h).

The header contains the data model and the inline member functions of
`input_event` verbatim; the bodies of `input_manager` / `input_context`
methods live in input.cpp, which is not part of the shown source, so those
operations are modelled from the specification (each such definition's doc
comment says so explicitly).  Machine `long` values are modelled as `Int`,
`std::vector` as `List`, `std::map` as an association list with first-match
lookup.
-/

namespace Input

/-- The `input_event_t` enum from src/input.h. -/
inductive input_event_t
  | CATA_INPUT_ERROR
  | CATA_INPUT_TIMEOUT
  | CATA_INPUT_KEYBOARD
  | CATA_INPUT_GAMEPAD
  | CATA_INPUT_MOUSE
deriving DecidableEq, Repr

open input_event_t

/-- The `input_event` struct from src/input.h: kind, modifier codes,
trigger sequence, mouse coordinates and decoded text. -/
structure input_event where
  type : input_event_t
  modifiers : List Int
  sequence : List Int
  mouse_x : Int
  mouse_y : Int
  text : String
deriving DecidableEq, Repr

/-- The default constructor `input_event()`: zero mouse coordinates,
`CATA_INPUT_ERROR` kind, empty vectors and empty text. -/
def input_event.default : input_event :=
  { type := CATA_INPUT_ERROR, modifiers := [], sequence := [],
    mouse_x := 0, mouse_y := 0, text := "" }

/-- The constructor `input_event(long s, input_event_t t)`: kind `t`,
sequence `[s]`, zero mouse coordinates, empty modifiers and text. -/
def input_event.single (s : Int) (t : input_event_t) : input_event :=
  { type := t, modifiers := [], sequence := [s],
    mouse_x := 0, mouse_y := 0, text := "" }

/-- `input_event::get_first_input`: 0 when the sequence is empty,
otherwise `sequence[0]`. -/
def input_event.get_first_input (e : input_event) : Int :=
  match e.sequence with
  | [] => 0
  | x :: _ => x

/-- Element-wise comparison of two code lists as done by the indexed loops
in `input_event::operator==`: sizes first, then each position. -/
def codesEq (xs ys : List Int) : Bool :=
  xs.length == ys.length && (List.zip xs ys).all fun p => p.1 == p.2

/-- `input_event::operator==`: compares `type`, then `sequence` size and
elements in order, then `modifiers` size and elements in order; the mouse
coordinates and `text` are not inspected. -/
def input_event.eqOp (self other : input_event) : Bool :=
  if self.type ≠ other.type then false
  else if ¬ codesEq self.sequence other.sequence then false
  else if ¬ codesEq self.modifiers other.modifiers then false
  else true

/-- The `action_attributes` struct from src/input.h: display name, whether
the record was user created, and the bound events. -/
structure action_attributes where
  is_user_created : Bool
  name : String
  input_events : List input_event
deriving DecidableEq, Repr

/-- The registry type `t_actions`: one context's map from action id to its
attributes, modelled as an association list with first-match lookup. -/
abbrev t_actions := List (String × action_attributes)

/-- The registry type `t_action_contexts`: map from context name to that
context's action table. -/
abbrev t_action_contexts := List (String × t_actions)

/-- First-match lookup in an association list, the model of `std::map`
element access. -/
def alookup {κ α : Type} [DecidableEq κ] (m : List (κ × α)) (k : κ) :
    Option α :=
  match m with
  | [] => none
  | (k1, v) :: rest => if k1 = k then some v else alookup rest k

/-- Pointwise update of the entry at key `k` of an association list; keys
and list order are unchanged, and a missing key leaves the map as is. -/
def map_update {α : Type} (m : List (String × α)) (k : String)
    (f : α → α) : List (String × α) :=
  m.map fun p => if p.1 = k then (p.1, f p.2) else p

/-- Insert-or-replace at key `k` of an association list: replace the value
when the key is present, append a fresh entry otherwise (the std::map
`operator[]`-then-assign idiom). -/
def upsert {α : Type} (m : List (String × α)) (k : String)
    (v : α) : List (String × α) :=
  if (alookup m k).isSome then map_update m k fun _ => v
  else m ++ [(k, v)]

/-- Look an action up in one context's table of the registry. -/
def find_action (reg : t_action_contexts) (context action : String) :
    Option action_attributes :=
  (alookup reg context).bind fun acts => alookup acts action

/-- Modelled from the spec: the body of `input_manager::get_input_for_action`
(input.cpp) is not under src.  Search the queried context's table, fall
through to `"default"` when absent; the second component is the
`overwrites_default` out-parameter (true exactly when the found record was
not in the default context), the third is the registry after the call
(lookups never mutate it). -/
def get_input_for_action (reg : t_action_contexts) (action_descriptor : String)
    (context : String) : List input_event × Bool × t_action_contexts :=
  match find_action reg context action_descriptor with
  | some attrs => (attrs.input_events, context != "default", reg)
  | none =>
    match find_action reg "default" action_descriptor with
    | some attrs => (attrs.input_events, false, reg)
    | none => ([], false, reg)

/-- Modelled from the spec: the body of `input_manager::add_input_for_action`
(input.cpp) is not under src.  Creates the (context, action) record on first
add and appends the event to the record's bound events unless an equal event
(by `operator==`) is already present. -/
def add_input_for_action (reg : t_action_contexts) (action_descriptor : String)
    (context : String) (event : input_event) : t_action_contexts :=
  let acts := (alookup reg context).getD []
  let attrs := (alookup acts action_descriptor).getD
    { is_user_created := true, name := action_descriptor, input_events := [] }
  let attrs2 :=
    if attrs.input_events.any (fun e => input_event.eqOp e event) then attrs
    else { attrs with input_events := attrs.input_events ++ [event] }
  upsert reg context (upsert acts action_descriptor attrs2)

/-- The bound-events list stored for a (context, action) pair, empty when
the record is absent; used to state properties of registry mutation. -/
def bound_events_of (reg : t_action_contexts) (context action : String) :
    List input_event :=
  ((find_action reg context action).getD
    { is_user_created := true, name := action, input_events := [] }).input_events

/-- The `input_context` class state from src/input.h: the live actions in
registration order, the sentinel flags, the queried category, the retained
raw event and coordinates, and the isometric flag. -/
structure input_context where
  registered_actions : List String
  registered_any_input : Bool
  category : String
  coordinate_x : Int
  coordinate_y : Int
  coordinate_input_received : Bool
  handling_coordinate_input : Bool
  next_action : input_event
  iso_mode : Bool
deriving DecidableEq, Repr

/-- The `input_context(std::string category)` constructor: no registered
actions, both sentinel flags clear, `iso_mode` false. -/
def input_context.make (category : String) : input_context :=
  { registered_actions := [], registered_any_input := false,
    category := category, coordinate_x := 0, coordinate_y := 0,
    coordinate_input_received := false, handling_coordinate_input := false,
    next_action := input_event.default, iso_mode := false }

/-- Modelled from the spec: the body of `input_context::register_action`
(input.cpp) is not under src.  Appends the action id to the live list if
not already present and raises the `"ANY_INPUT"` / `"COORDINATE"` sentinel
flags when the corresponding id is registered. -/
def input_context.register_action (ctx : input_context)
    (action_descriptor : String) : input_context :=
  { ctx with
    registered_actions :=
      if ctx.registered_actions.contains action_descriptor then
        ctx.registered_actions
      else ctx.registered_actions ++ [action_descriptor],
    registered_any_input :=
      ctx.registered_any_input || (action_descriptor == "ANY_INPUT"),
    handling_coordinate_input :=
      ctx.handling_coordinate_input || (action_descriptor == "COORDINATE") }

/-- The per-action match test of the resolution algorithm: the action's
bound events, looked up context-then-default through the registry, contain
an event equal (by `operator==`) to the polled event. -/
def action_matches (reg : t_action_contexts) (category : String)
    (ev : input_event) (action : String) : Bool :=
  (get_input_for_action reg action category).1.any fun b => input_event.eqOp b ev

/-- Modelled from the spec: the body of `input_context::input_to_action` /
the resolution part of `handle_input` (input.cpp) is not under src, and the
raw-input poll is an external collaborator, so the polled event is a
parameter.  First registered action whose bound events match wins; else
`"ANY_INPUT"` when registered (retaining the raw event); else
`"COORDINATE"` for mouse input when coordinate handling is on (recording
the coordinates); else `"ERROR"`. -/
def input_context.input_to_action (reg : t_action_contexts)
    (ctx : input_context) (ev : input_event) : String × input_context :=
  match ctx.registered_actions.find? (action_matches reg ctx.category ev) with
  | some action => (action, ctx)
  | none =>
    if ctx.registered_any_input then
      ("ANY_INPUT", { ctx with next_action := ev })
    else if ev.type = CATA_INPUT_MOUSE ∧ ctx.handling_coordinate_input = true then
      ("COORDINATE",
        { ctx with
          coordinate_x := ev.mouse_x
          coordinate_y := ev.mouse_y
          coordinate_input_received := true })
    else ("ERROR", ctx)

/-- Modelled from the spec: `input_context::get_raw_input` (input.cpp) is
not under src; it returns the retained raw event. -/
def input_context.get_raw_input (ctx : input_context) : input_event :=
  ctx.next_action

/-- The fixed directional action ids: the eight compass directions plus
center. -/
def directional_ids : List String :=
  ["UP", "DOWN", "LEFT", "RIGHT", "LEFTUP", "LEFTDOWN", "RIGHTUP",
   "RIGHTDOWN", "CENTER"]

/-- Modelled from the spec: the unit delta of each directional action id
(screen coordinates, y grows downward), `none` for anything else. -/
def direction_delta (action : String) : Option (Int × Int) :=
  if action = "UP" then some (0, -1)
  else if action = "DOWN" then some (0, 1)
  else if action = "LEFT" then some (-1, 0)
  else if action = "RIGHT" then some (1, 0)
  else if action = "LEFTUP" then some (-1, -1)
  else if action = "LEFTDOWN" then some (-1, 1)
  else if action = "RIGHTUP" then some (1, -1)
  else if action = "RIGHTDOWN" then some (1, 1)
  else if action = "CENTER" then some (0, 0)
  else none

/-- Sign of an integer, used to renormalise a rotated delta to a unit
delta. -/
def sgn (x : Int) : Int := if 0 < x then 1 else if x < 0 then -1 else 0

/-- Modelled from the spec: the body of `rotate_direction_cw` (input.cpp)
is not under src; rotate a unit delta 45 degrees clockwise in screen
coordinates. -/
def rotate_direction_cw (dx dy : Int) : Int × Int :=
  (sgn (dx - dy), sgn (dx + dy))

/-- Modelled from the spec: the body of `input_context::get_direction`
(input.cpp) is not under src.  Directional action ids map to their unit
delta, rotated 45 degrees when `iso_mode` is set; anything else yields
false with the `(-2, -2)` sentinel. -/
def input_context.get_direction (ctx : input_context) (action : String) :
    Bool × Int × Int :=
  match direction_delta action with
  | none => (false, -2, -2)
  | some (dx, dy) =>
    if ctx.iso_mode then
      let r := rotate_direction_cw dx dy
      (true, r.1, r.2)
    else (true, dx, dy)

/-- The keycode translation tables of `input_manager`: keyboard and gamepad
code-to-name maps plus the shared name-to-code map (src/input.h lines
223-227). -/
structure keycode_tables where
  keycode_to_keyname : List (Int × String)
  gamepad_keycode_to_keyname : List (Int × String)
  keyname_to_keycode : List (String × Int)
deriving DecidableEq, Repr

/-- The empty translation tables. -/
def keycode_tables.empty : keycode_tables :=
  { keycode_to_keyname := [], gamepad_keycode_to_keyname := [],
    keyname_to_keycode := [] }

/-- Modelled from the spec: the body of `input_manager::add_keycode_pair`
(input.cpp) is not under src.  Records a keyboard code/name pair in both
directions; the newest entry wins on lookup. -/
def add_keycode_pair (t : keycode_tables) (ch : Int) (name : String) :
    keycode_tables :=
  { t with keycode_to_keyname := (ch, name) :: t.keycode_to_keyname,
           keyname_to_keycode := (name, ch) :: t.keyname_to_keycode }

/-- Modelled from the spec: the body of
`input_manager::add_gamepad_keycode_pair` (input.cpp) is not under src.
Records a gamepad code/name pair in both directions. -/
def add_gamepad_keycode_pair (t : keycode_tables) (ch : Int) (name : String) :
    keycode_tables :=
  { t with gamepad_keycode_to_keyname := (ch, name) :: t.gamepad_keycode_to_keyname,
           keyname_to_keycode := (name, ch) :: t.keyname_to_keycode }

/-- One keycode registration performed by `init_keycode_mapping`: the
namespace (gamepad or keyboard), the numeric code and the canonical name. -/
structure keycode_reg where
  gamepad : Bool
  code : Int
  name : String
deriving DecidableEq, Repr

/-- The event kind a registration belongs to. -/
def keycode_reg.kind (r : keycode_reg) : input_event_t :=
  if r.gamepad then CATA_INPUT_GAMEPAD else CATA_INPUT_KEYBOARD

/-- Apply one registration to the tables. -/
def add_reg (t : keycode_tables) (r : keycode_reg) : keycode_tables :=
  if r.gamepad then add_gamepad_keycode_pair t r.code r.name
  else add_keycode_pair t r.code r.name

/-- Modelled from the spec: the body of
`input_manager::init_keycode_mapping` (input.cpp) is not under src; it
performs a sequence of keycode-pair registrations on empty tables. -/
def init_keycode_mapping (regs : List keycode_reg) : keycode_tables :=
  regs.foldl add_reg keycode_tables.empty

/-- The code-to-name table of one namespace. -/
def namespace_table (t : keycode_tables) (gamepad : Bool) :
    List (Int × String) :=
  if gamepad then t.gamepad_keycode_to_keyname else t.keycode_to_keyname

/-- Modelled from the spec: the body of `input_manager::get_keycode`
(input.cpp) is not under src; look the name up in the shared name-to-code
map, 0 when absent. -/
def keycode_tables.get_keycode (t : keycode_tables) (name : String) : Int :=
  (alookup t.keyname_to_keycode name).getD 0

/-- Modelled from the spec: the body of `input_manager::get_keyname`
(input.cpp) is not under src.  Select the keyboard or gamepad table by
event kind and look the code up; only the `portable = true` canonical-name
path is modelled (locale-dependent display names are out of scope), and an
unknown code yields a placeholder. -/
def keycode_tables.get_keyname (t : keycode_tables) (ch : Int)
    (input_type : input_event_t) (portable : Bool) : String :=
  let table := match input_type with
    | CATA_INPUT_GAMEPAD => t.gamepad_keycode_to_keyname
    | _ => t.keycode_to_keyname
  match alookup table ch with
  | some name => name
  | none => if portable then "UNKNOWN" else "unknown"

/-- Modelled from the spec: the conflict list assembled by
`input_context::get_conflicts` (input.cpp, not under src): every action
registered in this context, other than the one being edited, whose bound
events (context-then-default) contain an event equal to the proposed one;
the comma-joining into a display string is presentation and not
modelled. -/
def input_context.get_conflicts (reg : t_action_contexts)
    (ctx : input_context) (edited : String) (ev : input_event) :
    List String :=
  ctx.registered_actions.filter fun a =>
    if a = edited then false else action_matches reg ctx.category ev a

/-- Drop every stored event equal (by `operator==`) to the given one. -/
def remove_event (evs : List input_event) (ev : input_event) :
    List input_event :=
  evs.filter fun e => ¬ input_event.eqOp e ev

/-- Modelled from the spec: the body of
`input_context::clear_conflicting_keybindings` (input.cpp) is not under
src.  Removes the event from the bindings, in this context's category, of
every registered action other than the one being edited. -/
def input_context.clear_conflicting_keybindings (reg : t_action_contexts)
    (ctx : input_context) (edited : String) (ev : input_event) :
    t_action_contexts :=
  map_update reg ctx.category fun acts =>
    ctx.registered_actions.foldl
      (fun acc a =>
        if a = edited then acc
        else map_update acc a fun attrs =>
          { attrs with input_events := remove_event attrs.input_events ev })
      acts

/-- The keyboard event a bare printable character produces. -/
def single_char_event (c : Char) : input_event :=
  input_event.single (Int.ofNat c.toNat) CATA_INPUT_KEYBOARD

/-- Whether a stored event is exactly this single character pressed on the
keyboard. -/
def is_single_char_keyboard_event (ev : input_event) (c : Char) : Bool :=
  decide (ev.type = CATA_INPUT_KEYBOARD) &&
    decide (ev.sequence = [Int.ofNat c.toNat])

/-- Modelled from the spec: the body of
`input_context::get_available_single_char_hotkeys` (input.cpp) is not
under src.  Keeps, in order, the requested characters to which no
registered action of this context is bound as a single-character keyboard
event. -/
def input_context.get_available_single_char_hotkeys
    (reg : t_action_contexts) (ctx : input_context)
    (requested_keys : List Char) : List Char :=
  requested_keys.filter fun c =>
    !(ctx.registered_actions.any fun a =>
      (get_input_for_action reg a ctx.category).1.any fun ev =>
        is_single_char_keyboard_event ev c)

/-- A small concrete registry used to exercise the lookup, resolution and
conflict operations on closed inputs. -/
def sample_reg : t_action_contexts :=
  [("default",
     [("MOVE_N", { is_user_created := false, name := "move north",
                   input_events := [input_event.single 56 CATA_INPUT_KEYBOARD] }),
      ("QUIT", { is_user_created := false, name := "quit",
                 input_events := [input_event.single 113 CATA_INPUT_KEYBOARD] })]),
   ("game",
     [("QUIT", { is_user_created := false, name := "quit game",
                 input_events := [input_event.single 81 CATA_INPUT_KEYBOARD] }),
      ("ACTA", { is_user_created := false, name := "action a",
                 input_events := [input_event.single 120 CATA_INPUT_KEYBOARD] }),
      ("ACTB", { is_user_created := false, name := "action b",
                 input_events := [input_event.single 120 CATA_INPUT_KEYBOARD,
                                  input_event.single 121 CATA_INPUT_KEYBOARD] })])]

/-- A context over the default category with one live action. -/
def sample_ctx : input_context :=
  { input_context.make "default" with registered_actions := ["MOVE_N"] }

/-- A context over the game category with two live actions that share a
binding in `sample_reg`. -/
def conflict_ctx : input_context :=
  { input_context.make "game" with registered_actions := ["ACTA", "ACTB"] }

/-- A registry binding one action to the bare character a. -/
def hotkey_reg : t_action_contexts :=
  [("default",
     [("PICKUP", { is_user_created := false, name := "pick up",
                   input_events := [single_char_event ('a')] })])]

/-- A context registering the action bound in `hotkey_reg`. -/
def hotkey_ctx : input_context :=
  { input_context.make "default" with registered_actions := ["PICKUP"] }

/-- Keycode registrations giving keyboard and gamepad namespaces the same
numeric code with different names. -/
def kc_regs : List keycode_reg :=
  [{ gamepad := false, code := 274, name := "DOWN" },
   { gamepad := true, code := 274, name := "JOY_DOWN" }]

theorem codesEq_iff (xs ys : List Int) : codesEq xs ys = true ↔ xs = ys := by
  induction xs generalizing ys with
  | nil =>
    cases ys <;> simp [codesEq]
  | cons x xs ih =>
    cases ys with
    | nil => simp [codesEq]
    | cons y ys =>
      have h := ih ys
      simp only [codesEq, List.length_cons, List.zip_cons_cons, List.all_cons,
        beq_iff_eq, Bool.and_eq_true, Nat.add_right_cancel_iff, List.cons.injEq] at h ⊢
      constructor
      · rintro ⟨hlen, hx, hall⟩
        exact ⟨hx, h.mp ⟨hlen, hall⟩⟩
      · rintro ⟨hx, hrest⟩
        obtain ⟨hlen, hall⟩ := h.mpr hrest
        exact ⟨hlen, hx, hall⟩

/-- C1: `input_event::operator==` returns true iff the kinds are equal, the
sequences are equal element-wise in order and the modifier lists are equal
element-wise in order; mouse coordinates and text play no role, and
modifier lists are compared positionally, not as sets. -/
theorem input_event_eq_iff (a b : input_event) :
    input_event.eqOp a b = true ↔
      a.type = b.type ∧ a.sequence = b.sequence ∧ a.modifiers = b.modifiers := by
  unfold input_event.eqOp
  split_ifs with h1 h2 h3 <;> simp_all [codesEq_iff]

/-- C1 witness: two events that differ only in mouse coordinates and text
compare equal. -/
theorem input_event_eq_iff_witness :
    input_event.eqOp
      { type := CATA_INPUT_KEYBOARD, modifiers := [], sequence := [56],
        mouse_x := 5, mouse_y := 7, text := "8" }
      (input_event.single 56 CATA_INPUT_KEYBOARD) = true :=
  (input_event_eq_iff _ _).mpr ⟨rfl, rfl, rfl⟩

/-- C10: `input_event::get_first_input` returns 0 on an empty sequence (as
for a default-constructed event) and the first element otherwise; being a
total function of the sequence it performs no out-of-bounds access. -/
theorem get_first_input_safe :
    (∀ e : input_event, e.get_first_input = e.sequence.headD 0) ∧
      input_event.default.get_first_input = 0 := by
  constructor
  · rintro ⟨t, m, s, x, y, tx⟩
    cases s <;> rfl
  · rfl

/-- C2: for a context distinct from the default one, an action bound in
the context resolves to the context's own bound events with
`overwrites_default = true`; an action unbound in the context but bound in
the default one falls through to the default bound events with
`overwrites_default = false`; and the lookup returns the registry
unchanged. -/
theorem get_input_for_action_override_fallthrough (reg : t_action_contexts)
    (C A : String) (hC : C ≠ "default") :
    (∀ attrs, find_action reg C A = some attrs →
        get_input_for_action reg A C = (attrs.input_events, true, reg)) ∧
    (find_action reg C A = none →
      ∀ attrs, find_action reg "default" A = some attrs →
        get_input_for_action reg A C = (attrs.input_events, false, reg)) := by
  constructor
  · intro attrs h
    simp [get_input_for_action, h, bne_iff_ne, hC]
  · intro h attrs h2
    simp [get_input_for_action, h, h2]

/-- C2 witness: in `sample_reg`, "QUIT" is bound in the "game" context and
overrides the default, while "MOVE_N" falls through to the default
binding. -/
theorem get_input_for_action_override_fallthrough_witness :
    get_input_for_action sample_reg "QUIT" "game"
        = ([input_event.single 81 CATA_INPUT_KEYBOARD], true, sample_reg) ∧
      get_input_for_action sample_reg "MOVE_N" "game"
        = ([input_event.single 56 CATA_INPUT_KEYBOARD], false, sample_reg) :=
  ⟨(get_input_for_action_override_fallthrough sample_reg "game" "QUIT"
      (by decide)).1
      { is_user_created := false, name := "quit game",
        input_events := [input_event.single 81 CATA_INPUT_KEYBOARD] }
      (by decide),
   (get_input_for_action_override_fallthrough sample_reg "game" "MOVE_N"
      (by decide)).2 (by decide)
      { is_user_created := false, name := "move north",
        input_events := [input_event.single 56 CATA_INPUT_KEYBOARD] }
      (by decide)⟩

theorem contains_append_self (l : List String) (a : String) :
    (l ++ [a]).contains a = true := by
  induction l with
  | nil => simp
  | cons x l ih => simp_all [List.contains_cons]

/-- C7: registering the same action twice leaves the context in exactly the
state one registration produces, and a registered action is in the live
list. -/
theorem register_action_idempotent (ctx : input_context) (A : String) :
    input_context.register_action (input_context.register_action ctx A) A
        = input_context.register_action ctx A ∧
      A ∈ (input_context.register_action ctx A).registered_actions := by
  constructor
  · by_cases h : A ∈ ctx.registered_actions
    · simp [input_context.register_action, h, Bool.or_assoc]
    · simp [input_context.register_action, h, Bool.or_assoc,
        contains_append_self]
  · by_cases h : A ∈ ctx.registered_actions <;>
      simp [input_context.register_action, h]

theorem direction_delta_none_iff (a : String) :
    direction_delta a = none ↔ a ∉ directional_ids := by
  unfold direction_delta directional_ids
  split_ifs with h1 h2 h3 h4 h5 h6 h7 h8 h9 <;> simp_all

/-- C8: a non-directional action id yields false with the `(-2, -2)`
sentinel; a directional id yields true with its unit delta, rotated 45
degrees clockwise when `iso_mode` is set; and the directional ids are
exactly the eight compass directions plus center. -/
theorem get_direction_spec (ctx : input_context) (a : String) :
    (a ∉ directional_ids → ctx.get_direction a = (false, -2, -2)) ∧
    (∀ dx dy, direction_delta a = some (dx, dy) →
      ctx.get_direction a =
        (true, if ctx.iso_mode then rotate_direction_cw dx dy else (dx, dy))) ∧
    ((direction_delta a).isSome ↔ a ∈ directional_ids) := by
  refine ⟨?_, ?_, ?_⟩
  · intro h
    have h2 : direction_delta a = none := (direction_delta_none_iff a).mpr h
    simp [input_context.get_direction, h2]
  · intro dx dy h
    by_cases hi : ctx.iso_mode <;>
      simp [input_context.get_direction, h, hi]
  · constructor
    · intro hs
      by_contra hn
      rw [(direction_delta_none_iff a).mpr hn] at hs
      simp at hs
    · intro hm
      cases h : direction_delta a with
      | some v => simp
      | none => exact absurd hm ((direction_delta_none_iff a).mp h)

/-- C8 witness: the non-directional action "QUIT" yields false and the
`(-2, -2)` sentinel. -/
theorem get_direction_spec_witness :
    (input_context.make "menu").get_direction "QUIT" = (false, -2, -2) :=
  (get_direction_spec (input_context.make "menu") "QUIT").1 (by decide)

theorem find?_append_cons {p : String → Bool} (pre : List String) (a : String)
    (post : List String) (hpre : ∀ b ∈ pre, p b = false) (ha : p a = true) :
    (pre ++ a :: post).find? p = some a := by
  induction pre with
  | nil => exact List.find?_cons_of_pos _ ha
  | cons b pre ih =>
    rw [List.cons_append, List.find?_cons_of_neg _ (by simp [hpre b (by simp)])]
    exact ih fun x hx => hpre x (by simp [hx])

/-- C3: the polled event resolves to the first registered action, in
registration order, whose bound events (looked up context-then-default)
contain an equal event; with no match and `"ANY_INPUT"` registered it
resolves to `"ANY_INPUT"` and `get_raw_input` afterwards returns exactly
the polled event; with no match, `"ANY_INPUT"` not registered and
coordinate handling not applicable it resolves to `"ERROR"`. -/
theorem input_to_action_resolution (reg : t_action_contexts)
    (ctx : input_context) (ev : input_event) :
    (∀ pre a post, ctx.registered_actions = pre ++ a :: post →
      (∀ b ∈ pre, action_matches reg ctx.category ev b = false) →
      action_matches reg ctx.category ev a = true →
      (input_context.input_to_action reg ctx ev).1 = a) ∧
    ((∀ a ∈ ctx.registered_actions, action_matches reg ctx.category ev a = false) →
      ctx.registered_any_input = true →
      (input_context.input_to_action reg ctx ev).1 = "ANY_INPUT" ∧
        (input_context.input_to_action reg ctx ev).2.get_raw_input = ev) ∧
    ((∀ a ∈ ctx.registered_actions, action_matches reg ctx.category ev a = false) →
      ctx.registered_any_input = false →
      ¬(ev.type = CATA_INPUT_MOUSE ∧ ctx.handling_coordinate_input = true) →
      (input_context.input_to_action reg ctx ev).1 = "ERROR") := by
  refine ⟨?_, ?_, ?_⟩
  · intro pre a post hsplit hpre ha
    have hfind : ctx.registered_actions.find?
        (action_matches reg ctx.category ev) = some a := by
      rw [hsplit]
      exact find?_append_cons pre a post hpre ha
    simp [input_context.input_to_action, hfind]
  · intro hnone hany
    have hfind : ctx.registered_actions.find?
        (action_matches reg ctx.category ev) = none :=
      List.find?_eq_none.mpr fun x hx => by simp [hnone x hx]
    simp [input_context.input_to_action, hfind, hany,
      input_context.get_raw_input]
  · intro hnone hany hcoord
    have hfind : ctx.registered_actions.find?
        (action_matches reg ctx.category ev) = none :=
      List.find?_eq_none.mpr fun x hx => by simp [hnone x hx]
    simp [input_context.input_to_action, hfind, hany, hcoord]

/-- C3 witness: in `sample_reg`, polling the bound key 56 resolves to
"MOVE_N", and polling the unbound key 50 with no `"ANY_INPUT"` registered
resolves to "ERROR". -/
theorem input_to_action_resolution_witness :
    (input_context.input_to_action sample_reg sample_ctx
        (input_event.single 56 CATA_INPUT_KEYBOARD)).1 = "MOVE_N" ∧
      (input_context.input_to_action sample_reg sample_ctx
        (input_event.single 50 CATA_INPUT_KEYBOARD)).1 = "ERROR" :=
  ⟨(input_to_action_resolution sample_reg sample_ctx
      (input_event.single 56 CATA_INPUT_KEYBOARD)).1 [] "MOVE_N" []
      rfl (by simp) (by decide),
   (input_to_action_resolution sample_reg sample_ctx
      (input_event.single 50 CATA_INPUT_KEYBOARD)).2.2
      (by decide) rfl (by decide)⟩

theorem alookup_append {κ α : Type} [DecidableEq κ] (m1 m2 : List (κ × α))
    (k : κ) :
    alookup (m1 ++ m2) k = ((alookup m1 k).orElse fun _ => alookup m2 k) := by
  induction m1 with
  | nil => simp [alookup]
  | cons p m ih =>
    obtain ⟨k1, v1⟩ := p
    by_cases h : k1 = k <;> simp [alookup, h, ih]

theorem alookup_cons {κ α : Type} [DecidableEq κ] (k1 : κ) (v : α)
    (m : List (κ × α)) (k : κ) :
    alookup ((k1, v) :: m) k = if k1 = k then some v else alookup m k := rfl

theorem alookup_map_update_self {α : Type} (m : List (String × α)) (k : String)
    (f : α → α) :
    alookup (map_update m k f) k = (alookup m k).map f := by
  induction m with
  | nil => rfl
  | cons p m ih =>
    obtain ⟨k1, v1⟩ := p
    simp only [map_update, List.map_cons]
    by_cases h : k1 = k
    · rw [if_pos h, alookup_cons, alookup_cons, if_pos h, if_pos h]
      rfl
    · rw [if_neg h, alookup_cons, alookup_cons, if_neg h, if_neg h]
      exact ih

theorem alookup_map_update_ne {α : Type} (m : List (String × α)) (k : String)
    (f : α → α) (k2 : String) (h : k2 ≠ k) :
    alookup (map_update m k f) k2 = alookup m k2 := by
  induction m with
  | nil => rfl
  | cons p m ih =>
    obtain ⟨k1, v1⟩ := p
    simp only [map_update, List.map_cons]
    by_cases h1 : k1 = k
    · rw [if_pos h1, alookup_cons, alookup_cons]
      have h2 : ¬ k1 = k2 := by rw [h1]; exact fun he => h he.symm
      rw [if_neg h2, if_neg h2]
      exact ih
    · rw [if_neg h1, alookup_cons, alookup_cons]
      by_cases h2 : k1 = k2
      · rw [if_pos h2, if_pos h2]
      · rw [if_neg h2, if_neg h2]
        exact ih

theorem alookup_upsert_self {α : Type} (m : List (String × α)) (k : String)
    (v : α) : alookup (upsert m k v) k = some v := by
  unfold upsert
  cases hm : alookup m k with
  | some w => simp [hm, alookup_map_update_self]
  | none => simp [hm, alookup_append, alookup]

theorem alookup_upsert_ne {α : Type} (m : List (String × α)) (k : String)
    (v : α) (k2 : String) (h : k2 ≠ k) :
    alookup (upsert m k v) k2 = alookup m k2 := by
  unfold upsert
  split_ifs
  · exact alookup_map_update_ne m k _ k2 h
  · rw [alookup_append]
    cases hm : alookup m k2 with
    | some w => simp [hm]
    | none =>
      have hne : ¬ k = k2 := fun he => h he.symm
      simp [hm, alookup, hne]

theorem keyname_to_keycode_foldl_stable (rs : List keycode_reg)
    (t : keycode_tables) (n : String) (c : Int)
    (ht : alookup t.keyname_to_keycode n = some c)
    (hrs : ∀ r2 ∈ rs, r2.name = n → r2.code = c) :
    alookup (rs.foldl add_reg t).keyname_to_keycode n = some c := by
  induction rs generalizing t with
  | nil => exact ht
  | cons r rs ih =>
    rw [List.foldl_cons]
    apply ih
    · have hstep : (add_reg t r).keyname_to_keycode
          = (r.name, r.code) :: t.keyname_to_keycode := by
        unfold add_reg add_keycode_pair add_gamepad_keycode_pair
        by_cases hg : r.gamepad <;> simp [hg]
      rw [hstep]
      by_cases hn : r.name = n
      · unfold alookup
        rw [if_pos hn, hrs r (by simp) hn]
      · unfold alookup
        rw [if_neg hn]
        exact ht
    · intro r2 h2 hn
      exact hrs r2 (by simp [h2]) hn

theorem code_table_foldl_stable (rs : List keycode_reg) (t : keycode_tables)
    (g : Bool) (c : Int) (n : String)
    (ht : alookup (namespace_table t g) c = some n)
    (hrs : ∀ r2 ∈ rs, r2.gamepad = g → r2.code = c → r2.name = n) :
    alookup (namespace_table (rs.foldl add_reg t) g) c = some n := by
  induction rs generalizing t with
  | nil => exact ht
  | cons r rs ih =>
    rw [List.foldl_cons]
    apply ih
    · by_cases hg : r.gamepad = g
      · have hstep : namespace_table (add_reg t r) g
            = (r.code, r.name) :: namespace_table t g := by
          unfold add_reg add_keycode_pair add_gamepad_keycode_pair namespace_table
          cases g <;> simp_all
        rw [hstep]
        by_cases hc : r.code = c
        · unfold alookup
          rw [if_pos hc, hrs r (by simp) hg hc]
        · unfold alookup
          rw [if_neg hc]
          exact ht
      · have hstep : namespace_table (add_reg t r) g = namespace_table t g := by
          unfold add_reg add_keycode_pair add_gamepad_keycode_pair namespace_table
          cases g <;> simp_all
        rw [hstep]
        exact ht
    · intro r2 h2 hg hc
      exact hrs r2 (by simp [h2]) hg hc

/-- C4: for every name present in the keycode tables built by a
registration sequence whose name-to-code and per-namespace code-to-name
associations are functional, translating the name to its code and back
under the kind it was registered with returns the name, even though the
keyboard and gamepad namespaces may give one numeric code different
names. -/
theorem keycode_keyname_roundtrip (regs : List keycode_reg) (r : keycode_reg)
    (hmem : r ∈ regs)
    (hname : ∀ r2 ∈ regs, r2.name = r.name → r2.code = r.code)
    (hcode : ∀ r2 ∈ regs, r2.gamepad = r.gamepad → r2.code = r.code →
      r2.name = r.name) :
    (init_keycode_mapping regs).get_keyname
      ((init_keycode_mapping regs).get_keycode r.name) r.kind true = r.name := by
  obtain ⟨l1, l2, rfl⟩ := List.append_of_mem hmem
  unfold init_keycode_mapping
  rw [List.foldl_append, List.foldl_cons]
  have hn : alookup (List.foldl add_reg
      (add_reg (List.foldl add_reg keycode_tables.empty l1) r) l2).keyname_to_keycode
      r.name = some r.code := by
    apply keyname_to_keycode_foldl_stable
    · have hstep : (add_reg (List.foldl add_reg keycode_tables.empty l1) r).keyname_to_keycode
          = (r.name, r.code) ::
            (List.foldl add_reg keycode_tables.empty l1).keyname_to_keycode := by
        unfold add_reg add_keycode_pair add_gamepad_keycode_pair
        by_cases hg : r.gamepad <;> simp [hg]
      rw [hstep]
      unfold alookup
      rw [if_pos rfl]
    · intro r2 h2 hn2
      exact hname r2 (by simp [h2]) hn2
  have hc : alookup (namespace_table (List.foldl add_reg
      (add_reg (List.foldl add_reg keycode_tables.empty l1) r) l2) r.gamepad)
      r.code = some r.name := by
    apply code_table_foldl_stable
    · have hstep : namespace_table
          (add_reg (List.foldl add_reg keycode_tables.empty l1) r) r.gamepad
          = (r.code, r.name) ::
            namespace_table (List.foldl add_reg keycode_tables.empty l1) r.gamepad := by
        unfold add_reg add_keycode_pair add_gamepad_keycode_pair namespace_table
        by_cases hg : r.gamepad <;> simp [hg]
      rw [hstep]
      unfold alookup
      rw [if_pos rfl]
    · intro r2 h2 hg2 hc2
      exact hcode r2 (by simp [h2]) hg2 hc2
  unfold keycode_tables.get_keycode
  rw [hn]
  unfold keycode_tables.get_keyname keycode_reg.kind
  by_cases hg : r.gamepad
  · rw [if_pos hg]
    simp only [Option.getD_some]
    rw [show (namespace_table (List.foldl add_reg
        (add_reg (List.foldl add_reg keycode_tables.empty l1) r) l2) r.gamepad)
        = (List.foldl add_reg
        (add_reg (List.foldl add_reg keycode_tables.empty l1) r) l2).gamepad_keycode_to_keyname
      from by rw [hg]; rfl] at hc
    rw [hc]
  · rw [if_neg hg]
    simp only [Option.getD_some]
    rw [Bool.not_eq_true] at hg
    rw [show (namespace_table (List.foldl add_reg
        (add_reg (List.foldl add_reg keycode_tables.empty l1) r) l2) r.gamepad)
        = (List.foldl add_reg
        (add_reg (List.foldl add_reg keycode_tables.empty l1) r) l2).keycode_to_keyname
      from by rw [hg]; rfl] at hc
    rw [hc]

/-- C4 witness: with keyboard code 274 named "DOWN" and gamepad code 274
named "JOY_DOWN", both names round-trip under their own kind. -/
theorem keycode_keyname_roundtrip_witness :
    (init_keycode_mapping kc_regs).get_keyname
        ((init_keycode_mapping kc_regs).get_keycode "DOWN")
        CATA_INPUT_KEYBOARD true = "DOWN" ∧
      (init_keycode_mapping kc_regs).get_keyname
        ((init_keycode_mapping kc_regs).get_keycode "JOY_DOWN")
        CATA_INPUT_GAMEPAD true = "JOY_DOWN" :=
  ⟨keycode_keyname_roundtrip kc_regs
      { gamepad := false, code := 274, name := "DOWN" }
      (by decide) (by decide) (by decide),
   keycode_keyname_roundtrip kc_regs
      { gamepad := true, code := 274, name := "JOY_DOWN" }
      (by decide) (by decide) (by decide)⟩

theorem bound_events_of_alt (reg : t_action_contexts) (context action : String) :
    bound_events_of reg context action
      = ((alookup ((alookup reg context).getD []) action).getD
          { is_user_created := true, name := action,
            input_events := [] }).input_events := by
  unfold bound_events_of find_action
  cases h : alookup reg context <;> simp [h, alookup]

theorem add_input_events_eq (reg : t_action_contexts)
    (action context : String) (ev : input_event) :
    bound_events_of (add_input_for_action reg action context ev) context action
      = (if (bound_events_of reg context action).any
            (fun e => input_event.eqOp e ev)
         then bound_events_of reg context action
         else bound_events_of reg context action ++ [ev]) := by
  simp only [bound_events_of_alt]
  unfold add_input_for_action
  rw [alookup_upsert_self]
  simp only [Option.getD_some]
  rw [alookup_upsert_self]
  simp only [Option.getD_some]
  split_ifs with h
  · rfl
  · rfl

/-- C6: `add_input_for_action` never inserts an event into a bound-events
list that already holds an equal event (by the `operator==` contract): with
a duplicate present the stored list is unchanged, otherwise the event is
appended, and a pairwise-inequal list stays pairwise inequal. -/
theorem add_input_for_action_no_duplicate (reg : t_action_contexts)
    (action context : String) (ev : input_event) :
    ((bound_events_of reg context action).any
        (fun e => input_event.eqOp e ev) = true →
      bound_events_of (add_input_for_action reg action context ev) context action
        = bound_events_of reg context action) ∧
    ((bound_events_of reg context action).any
        (fun e => input_event.eqOp e ev) = false →
      bound_events_of (add_input_for_action reg action context ev) context action
        = bound_events_of reg context action ++ [ev]) ∧
    (List.Pairwise (fun x y => input_event.eqOp x y = false)
        (bound_events_of reg context action) →
      List.Pairwise (fun x y => input_event.eqOp x y = false)
        (bound_events_of (add_input_for_action reg action context ev)
          context action)) := by
  refine ⟨?_, ?_, ?_⟩
  · intro h
    rw [add_input_events_eq, if_pos h]
  · intro h
    rw [add_input_events_eq, if_neg (by simp [h])]
  · intro hp
    rw [add_input_events_eq]
    by_cases h : (bound_events_of reg context action).any
        (fun e => input_event.eqOp e ev) = true
    · rw [if_pos h]
      exact hp
    · rw [if_neg (by simp [Bool.of_not_eq_true h])]
      rw [List.pairwise_append]
      refine ⟨hp, List.pairwise_singleton _ _, ?_⟩
      intro x hx y hy
      rw [List.mem_singleton] at hy
      rw [hy]
      by_contra hne
      have hx2 : input_event.eqOp x ev = true := by
        revert hne
        cases input_event.eqOp x ev <;> simp
      exact h (List.any_eq_true.mpr ⟨x, hx, hx2⟩)

/-- C6 witness: adding the already-bound key 56 to "MOVE_N" leaves the
stored list unchanged, and the stored list stays pairwise inequal. -/
theorem add_input_for_action_no_duplicate_witness :
    bound_events_of (add_input_for_action sample_reg "MOVE_N" "default"
        (input_event.single 56 CATA_INPUT_KEYBOARD)) "default" "MOVE_N"
      = [input_event.single 56 CATA_INPUT_KEYBOARD] ∧
    List.Pairwise (fun x y => input_event.eqOp x y = false)
      (bound_events_of (add_input_for_action sample_reg "MOVE_N" "default"
        (input_event.single 56 CATA_INPUT_KEYBOARD)) "default" "MOVE_N") :=
  ⟨((add_input_for_action_no_duplicate sample_reg "MOVE_N" "default"
      (input_event.single 56 CATA_INPUT_KEYBOARD)).1 (by decide)).trans
      (by decide),
   (add_input_for_action_no_duplicate sample_reg "MOVE_N" "default"
      (input_event.single 56 CATA_INPUT_KEYBOARD)).2.2 (by decide)⟩

theorem mem_remove_event (l : List input_event) (ev e : input_event)
    (he : e ∈ remove_event l ev) : input_event.eqOp e ev = false := by
  unfold remove_event at he
  rw [List.mem_filter] at he
  simpa using he.2

theorem clear_fold_keeps (ev : input_event) (edited B : String) :
    ∀ (actions : List String) (acc : t_actions) (attrs : action_attributes),
      alookup acc B = some attrs →
      (∀ e ∈ attrs.input_events, input_event.eqOp e ev = false) →
      ∃ attrs2,
        alookup (actions.foldl (fun acc a =>
            if a = edited then acc
            else map_update acc a fun attrs =>
              { attrs with input_events := remove_event attrs.input_events ev })
          acc) B = some attrs2 ∧
        ∀ e ∈ attrs2.input_events, input_event.eqOp e ev = false := by
  intro actions
  induction actions with
  | nil => exact fun acc attrs h hP => ⟨attrs, h, hP⟩
  | cons a rest ih =>
    intro acc attrs h hP
    rw [List.foldl_cons]
    by_cases ha : a = edited
    · rw [if_pos ha]
      exact ih acc attrs h hP
    · rw [if_neg ha]
      by_cases hab : a = B
      · refine ih _ ({ attrs with
          input_events := remove_event attrs.input_events ev }) ?_ ?_
        · rw [hab, alookup_map_update_self, h]
          rfl
        · exact fun e he => mem_remove_event _ ev e he
      · refine ih _ attrs ?_ hP
        rw [alookup_map_update_ne _ _ _ _ fun he => hab he.symm]
        exact h

theorem clear_fold_filters (ev : input_event) (edited B : String)
    (hBe : B ≠ edited) :
    ∀ (actions : List String) (acc : t_actions) (attrs : action_attributes),
      B ∈ actions → alookup acc B = some attrs →
      ∃ attrs2,
        alookup (actions.foldl (fun acc a =>
            if a = edited then acc
            else map_update acc a fun attrs =>
              { attrs with input_events := remove_event attrs.input_events ev })
          acc) B = some attrs2 ∧
        ∀ e ∈ attrs2.input_events, input_event.eqOp e ev = false := by
  intro actions
  induction actions with
  | nil => exact fun acc attrs hm => absurd hm (List.not_mem_nil B)
  | cons a rest ih =>
    intro acc attrs hm h
    rw [List.foldl_cons]
    by_cases hab : a = B
    · have ha : ¬ a = edited := by rw [hab]; exact hBe
      rw [if_neg ha]
      exact clear_fold_keeps ev edited B rest _
        ({ attrs with input_events := remove_event attrs.input_events ev })
        (by rw [hab, alookup_map_update_self, h]; rfl)
        (fun e he => mem_remove_event _ ev e he)
    · have hrest : B ∈ rest := by
        rcases List.mem_cons.mp hm with h1 | h1
        · exact absurd h1.symm hab
        · exact h1
      by_cases ha : a = edited
      · rw [if_pos ha]
        exact ih acc attrs hrest h
      · rw [if_neg ha]
        refine ih _ attrs hrest ?_
        rw [alookup_map_update_ne _ _ _ _ fun he => hab he.symm]
        exact h

/-- C5: with one event bound to two distinct registered actions of the
same category, the conflict list computed while editing either action
lists the other one, and after clearing conflicting keybindings while
editing the first, the second action's stored bound events in that
category no longer contain an equal event. -/
theorem conflict_symmetry_and_clear (reg : t_action_contexts)
    (ctx : input_context) (A B : String) (E : input_event)
    (hAB : A ≠ B)
    (hAreg : A ∈ ctx.registered_actions) (hBreg : B ∈ ctx.registered_actions)
    (hA : action_matches reg ctx.category E A = true)
    (hB : action_matches reg ctx.category E B = true)
    (attrsB : action_attributes)
    (hBcat : find_action reg ctx.category B = some attrsB) :
    B ∈ input_context.get_conflicts reg ctx A E ∧
    A ∈ input_context.get_conflicts reg ctx B E ∧
    ∀ e ∈ bound_events_of
        (input_context.clear_conflicting_keybindings reg ctx A E)
        ctx.category B,
      input_event.eqOp e E = false := by
  refine ⟨?_, ?_, ?_⟩
  · unfold input_context.get_conflicts
    rw [List.mem_filter]
    refine ⟨hBreg, ?_⟩
    rw [if_neg fun he => hAB he.symm]
    exact hB
  · unfold input_context.get_conflicts
    rw [List.mem_filter]
    refine ⟨hAreg, ?_⟩
    rw [if_neg hAB]
    exact hA
  · unfold find_action at hBcat
    cases hcat : alookup reg ctx.category with
    | none =>
      rw [hcat] at hBcat
      simp at hBcat
    | some acts =>
      rw [hcat] at hBcat
      have hBa : alookup acts B = some attrsB := hBcat
      obtain ⟨attrs2, hl2, hP2⟩ := clear_fold_filters E A B
        (fun he => hAB he.symm) ctx.registered_actions acts attrsB hBreg hBa
      intro e he
      apply hP2
      have hbe : bound_events_of
          (input_context.clear_conflicting_keybindings reg ctx A E)
          ctx.category B = attrs2.input_events := by
        unfold bound_events_of find_action
          input_context.clear_conflicting_keybindings
        rw [alookup_map_update_self, hcat]
        simp [hl2]
      rw [hbe] at he
      exact he

/-- C5 witness: in `sample_reg`, key 120 is bound to both "ACTA" and
"ACTB" of the "game" category; each appears in the other's conflict list,
and after clearing while editing "ACTA" the surviving "ACTB" event 121 is
not equal to the cleared one. -/
theorem conflict_symmetry_and_clear_witness :
    "ACTB" ∈ input_context.get_conflicts sample_reg conflict_ctx "ACTA"
        (input_event.single 120 CATA_INPUT_KEYBOARD) ∧
    "ACTA" ∈ input_context.get_conflicts sample_reg conflict_ctx "ACTB"
        (input_event.single 120 CATA_INPUT_KEYBOARD) ∧
    input_event.eqOp (input_event.single 121 CATA_INPUT_KEYBOARD)
        (input_event.single 120 CATA_INPUT_KEYBOARD) = false :=
  have h := conflict_symmetry_and_clear sample_reg conflict_ctx "ACTA" "ACTB"
    (input_event.single 120 CATA_INPUT_KEYBOARD) (by decide) (by decide)
    (by decide) (by decide) (by decide)
    { is_user_created := false, name := "action b",
      input_events := [input_event.single 120 CATA_INPUT_KEYBOARD,
                       input_event.single 121 CATA_INPUT_KEYBOARD] }
    (by decide)
  ⟨h.1, h.2.1, h.2.2 (input_event.single 121 CATA_INPUT_KEYBOARD) (by decide)⟩

/-- C9: the available single-character hotkeys are exactly the requested
characters to which no registered action is bound as a single-character
keyboard event, and they form a subsequence of the requested string, in
its order. -/
theorem get_available_single_char_hotkeys_spec (reg : t_action_contexts)
    (ctx : input_context) (requested_keys : List Char) :
    (input_context.get_available_single_char_hotkeys reg ctx
        requested_keys).Sublist requested_keys ∧
    ∀ c, c ∈ input_context.get_available_single_char_hotkeys reg ctx
        requested_keys ↔
      (c ∈ requested_keys ∧ ∀ a ∈ ctx.registered_actions,
        ∀ e ∈ (get_input_for_action reg a ctx.category).1,
          ¬(e.type = CATA_INPUT_KEYBOARD ∧
            e.sequence = [Int.ofNat c.toNat])) := by
  constructor
  · exact List.filter_sublist _
  · intro c
    unfold input_context.get_available_single_char_hotkeys
    rw [List.mem_filter]
    have key : (!(ctx.registered_actions.any fun a =>
        (get_input_for_action reg a ctx.category).1.any fun e =>
          is_single_char_keyboard_event e c)) = true ↔
        (∀ a ∈ ctx.registered_actions,
          ∀ e ∈ (get_input_for_action reg a ctx.category).1,
            ¬(e.type = CATA_INPUT_KEYBOARD ∧
              e.sequence = [Int.ofNat c.toNat])) := by
      rw [Bool.not_eq_true', List.any_eq_false]
      constructor
      · intro h a ha e he hc
        have h1 := h a ha
        rw [Bool.not_eq_true, List.any_eq_false] at h1
        have h2 := h1 e he
        simp [is_single_char_keyboard_event, hc.1, hc.2] at h2
      · intro h a ha
        rw [Bool.not_eq_true, List.any_eq_false]
        intro e he
        simp only [is_single_char_keyboard_event, Bool.and_eq_true,
          decide_eq_true_eq, not_and]
        exact fun ht hs => h a ha e he ⟨ht, hs⟩
    rw [key]

/-- C9 witness: with a registered action bound to the bare key a,
requesting "abc" yields "bc", a subsequence of the request. -/
theorem get_available_single_char_hotkeys_spec_witness :
    input_context.get_available_single_char_hotkeys hotkey_reg hotkey_ctx
        ['a', 'b', 'c'] = ['b', 'c'] ∧
    (input_context.get_available_single_char_hotkeys hotkey_reg hotkey_ctx
        ['a', 'b', 'c']).Sublist ['a', 'b', 'c'] :=
  ⟨by decide,
   (get_available_single_char_hotkeys_spec hotkey_reg hotkey_ctx
      ['a', 'b', 'c']).1⟩

end Input
